import Mathlib

/-!
# MFDP — verification of the credit-metered asynchronous inference pipeline

This development embeds, in Lean 4, the billing/job pipeline of the MFDP
repository (Balance Ledger, Job Store, API Gateway, Worker Pool) together
with the billing-relevant parts of the React frontend
(`BalanceCard.jsx`, `Scan3DPage.jsx`, `DashboardPage.jsx`,
`AuthContext.jsx`), and proves the spec's testable properties about them.

The backend services (ledger, job store, worker) are not present in the
source tree (only their entrypoint scripts and test runners are), so the
backend definitions below are modelled from the specification (§3–§5 and
§8 of `spec.md`); each such definition's doc comment says so.  The
frontend definitions are translated directly from the JSX sources.
-/

namespace MFDP

/-! ## Data model (modelled from the spec, §3) -/

/-- Modelled from the spec: Transaction `kind` ∈ {debit, refund, topup}. -/
inductive TxKind where
  | debit
  | refund
  | topup
deriving DecidableEq

/-- Modelled from the spec: a ledger Transaction: `id`, `user_id`, `kind`,
`amount` (positive magnitude), `job_id` (nullable for topups). -/
structure Transaction where
  id : Nat
  user_id : Nat
  kind : TxKind
  amount : Int
  job_id : Option Nat
deriving DecidableEq

/-- Modelled from the spec: Job `kind` ∈ {image_predict, scan_predict}. -/
inductive JobKind where
  | image_predict
  | scan_predict
deriving DecidableEq

/-- Modelled from the spec: Job `status` ∈ {queued, processing, completed,
failed, refunded}. -/
inductive JobStatus where
  | queued
  | processing
  | completed
  | failed
  | refunded
deriving DecidableEq

/-- Modelled from the spec: a Job record (`result_refs` empty until
completed; `attempt_count` incremented by `claim`). -/
structure Job where
  id : Nat
  user_id : Nat
  kind : JobKind
  input_ref : String
  status : JobStatus
  result_refs : List String
  attempt_count : Nat
deriving DecidableEq

/-- Modelled from the spec: the Balance Ledger state — per-user balances
plus the append-only transaction log. -/
structure LedgerState where
  balances : Nat → Int
  transactions : List Transaction
  nextTxId : Nat

/-- Modelled from the spec: the whole persistent state — ledger plus the
Job Store (jobs are never deleted). -/
structure SysState where
  ledger : LedgerState
  jobs : List Job
  nextJobId : Nat

/-- Signed contribution of one transaction to a user's balance: debits
subtract, refunds and topups add; other users' transactions contribute 0. -/
def txSigned (uid : Nat) (t : Transaction) : Int :=
  if t.user_id = uid then
    match t.kind with
    | TxKind.debit => -t.amount
    | TxKind.refund => t.amount
    | TxKind.topup => t.amount
  else 0

/-- Sum of all applied transactions for a user (spec §3: the balance
invariant's right-hand side). -/
def txSum (txs : List Transaction) (uid : Nat) : Int :=
  (txs.map (txSigned uid)).sum

/-- Does this transaction record the debit for job `jid`? -/
def isDebitFor (jid : Nat) (t : Transaction) : Bool :=
  t.kind == TxKind.debit && t.job_id == some jid

/-- Does this transaction record the refund for job `jid`? -/
def isRefundFor (jid : Nat) (t : Transaction) : Bool :=
  t.kind == TxKind.refund && t.job_id == some jid

/-- Number of debit transactions carrying `job_id = jid`. -/
def countDebit (txs : List Transaction) (jid : Nat) : Nat :=
  txs.countP (isDebitFor jid)

/-- Number of refund transactions carrying `job_id = jid`. -/
def countRefund (txs : List Transaction) (jid : Nat) : Nat :=
  txs.countP (isRefundFor jid)

/-- First refund transaction recorded for job `jid`, if any. -/
def findRefund (txs : List Transaction) (jid : Nat) : Option Transaction :=
  txs.find? (isRefundFor jid)

/-- Amount of the debit transaction recorded for job `jid` (0 if none):
the `debited_amount` the worker refunds on permanent failure. -/
def debitAmountFor (txs : List Transaction) (jid : Nat) : Int :=
  match txs.find? (isDebitFor jid) with
  | some t => t.amount
  | none => 0

/-- Pointwise update of the balance map. -/
def setBal (b : Nat → Int) (uid : Nat) (v : Int) : Nat → Int :=
  fun u => if u = uid then v else b u

/-! ## Balance Ledger operations (modelled from the spec, §4.1) -/

/-- Error taxonomy of the billing surface (spec §7). -/
inductive LedgerError where
  | InsufficientBalance
  | InvalidInput
deriving DecidableEq

/-- Modelled from the spec: `debit(user_id, amount)` — fails with
`InsufficientBalance` if `balance < amount`, otherwise atomically
decrements the balance and appends a `debit` Transaction carrying the
job id. On failure the state is unchanged. -/
def debit (l : LedgerState) (uid : Nat) (amount : Int) (jid : Nat) :
    Except LedgerError (LedgerState × Nat) :=
  if l.balances uid < amount then Except.error LedgerError.InsufficientBalance
  else Except.ok
    ({ balances := setBal l.balances uid (l.balances uid - amount)
       transactions := l.transactions ++
         [⟨l.nextTxId, uid, TxKind.debit, amount, some jid⟩]
       nextTxId := l.nextTxId + 1 }, l.nextTxId)

/-- Modelled from the spec: `refund(user_id, job_id, amount)` — if a
refund already exists for `job_id`, an idempotent no-op returning the
existing transaction id; otherwise atomically increments the balance and
appends a `refund` Transaction. -/
def refund (l : LedgerState) (uid : Nat) (jid : Nat) (amount : Int) :
    LedgerState × Nat :=
  match findRefund l.transactions jid with
  | some t => (l, t.id)
  | none =>
    ({ balances := setBal l.balances uid (l.balances uid + amount)
       transactions := l.transactions ++
         [⟨l.nextTxId, uid, TxKind.refund, amount, some jid⟩]
       nextTxId := l.nextTxId + 1 }, l.nextTxId)

/-- Modelled from the spec: `topup(user_id, amount)` — unconditional
credit; the amount must be positive, otherwise rejected with no effect. -/
def topup (l : LedgerState) (uid : Nat) (amount : Int) :
    Except LedgerError (LedgerState × Nat) :=
  if amount ≤ 0 then Except.error LedgerError.InvalidInput
  else Except.ok
    ({ balances := setBal l.balances uid (l.balances uid + amount)
       transactions := l.transactions ++
         [⟨l.nextTxId, uid, TxKind.topup, amount, none⟩]
       nextTxId := l.nextTxId + 1 }, l.nextTxId)

/-! ## Job Store operations (modelled from the spec, §4.2) -/

/-- Look a Job up by id. -/
def findJob (jobs : List Job) (jid : Nat) : Option Job :=
  jobs.find? (fun j => j.id == jid)

/-- Update the Job with id `jid` in place (jobs are never deleted). -/
def updateJob (jobs : List Job) (jid : Nat) (f : Job → Job) : List Job :=
  jobs.map (fun j => if j.id = jid then f j else j)

/-- Modelled from the spec: `createQueued(user_id, kind, input_ref)` —
inserts a Job in `queued` state with empty `result_refs` and zero
`attempt_count`; returns the fresh Job id. -/
def createQueued (st : SysState) (uid : Nat) (kind : JobKind)
    (input_ref : String) : SysState × Nat :=
  ({ st with
      jobs := st.jobs ++
        [⟨st.nextJobId, uid, kind, input_ref, JobStatus.queued, [], 0⟩]
      nextJobId := st.nextJobId + 1 }, st.nextJobId)

/-- Modelled from the spec: `claim(job_id)` — atomic compare-and-set from
`queued` to `processing`, incrementing `attempt_count`; returns false
(leaving the state untouched) if the Job is not currently `queued`
(already claimed, already terminal, or unknown id). -/
def claim (st : SysState) (jid : Nat) : SysState × Bool :=
  match findJob st.jobs jid with
  | none => (st, false)
  | some j =>
    if j.status = JobStatus.queued then
      ({ st with jobs := updateJob st.jobs jid (fun j =>
          { j with status := JobStatus.processing
                   attempt_count := j.attempt_count + 1 }) }, true)
    else (st, false)

/-- Modelled from the spec: `complete(job_id, result_refs)` — atomic
compare-and-set from `processing` to `completed`, storing the result
references; a no-op (not an error) in any other state, in particular when
already `completed`. -/
def complete (st : SysState) (jid : Nat) (refs : List String) : SysState :=
  { st with jobs := updateJob st.jobs jid (fun j =>
      if j.status = JobStatus.processing then
        { j with status := JobStatus.completed, result_refs := refs }
      else j) }

/-- Modelled from the spec: `fail(job_id, permanent)` — from `processing`:
if not permanent and `attempt_count < maxAttempts`, back to `queued` for
redelivery; if permanent or attempts exhausted, to `failed`. -/
def fail (st : SysState) (jid : Nat) (permanent : Bool) (maxAttempts : Nat) :
    SysState :=
  { st with jobs := updateJob st.jobs jid (fun j =>
      if j.status = JobStatus.processing then
        if permanent = false ∧ j.attempt_count < maxAttempts then
          { j with status := JobStatus.queued }
        else { j with status := JobStatus.failed }
      else j) }

/-- Modelled from the spec: `markRefunded(job_id)` — atomic
compare-and-set from `failed` to `refunded`; idempotent no-op otherwise. -/
def markRefunded (st : SysState) (jid : Nat) : SysState :=
  { st with jobs := updateJob st.jobs jid (fun j =>
      if j.status = JobStatus.failed then
        { j with status := JobStatus.refunded }
      else j) }

/-! ## API Gateway (modelled from the spec, §4.5) -/

/-- Modelled from the spec: per-kind job cost (scenario §8: an
`image_predict` costs 2.00 credits, a `scan_predict` costs 5.00). -/
def costOf : JobKind → Int
  | JobKind.image_predict => 2
  | JobKind.scan_predict => 5

/-- Modelled from the spec: `submitPrediction(user_id, kind, asset)` —
`assetValid` is the outcome of the gateway's format/size validation of
the uploaded asset (an external judgment); if it failed, abort with
`InvalidInput` and no side effect.  Otherwise, within one atomic unit,
`debit` then `createQueued`: on debit failure abort with
`InsufficientBalance` and create no Job; on success both effects commit
and the fresh Job id is returned.  The error cases return the state
unchanged — no partial effect is ever visible. -/
def submitPrediction (st : SysState) (uid : Nat) (kind : JobKind)
    (input_ref : String) (assetValid : Bool) :
    SysState × Except LedgerError Nat :=
  if assetValid = false then (st, Except.error LedgerError.InvalidInput)
  else
    match debit st.ledger uid (costOf kind) st.nextJobId with
    | Except.error e => (st, Except.error e)
    | Except.ok (l, _) =>
      let p := createQueued { st with ledger := l } uid kind input_ref
      (p.1, Except.ok p.2)

/-! ## Worker Pool (modelled from the spec, §4.4) -/

/-- Outcome of one call to the external Inference Engine. -/
inductive InferOutcome where
  | ok (ref : String)
  | transientFail
  | permanentFail
deriving DecidableEq

/-- The Inference Engine as an opaque external function: given the input
reference and the sub-call index (0 = image / brain mask, 1 = aneurysm
mask), it yields a result reference or fails. -/
def Engine : Type := String → Nat → InferOutcome

/-- Classified result of running the inference for one Job. -/
inductive WorkResult where
  | success (refs : List String)
  | transient
  | permanent
deriving DecidableEq

/-- Modelled from the spec: the worker's inference phase, dispatched on
the Job kind.  `image_predict` makes one call producing a single mask
reference.  `scan_predict` makes two calls in sequence (brain mask, then
aneurysm mask); if the first succeeds and the second fails, the Job fails
as a whole and no partial result is kept. -/
def runInference (eng : Engine) (kind : JobKind) (input_ref : String) :
    WorkResult :=
  match kind with
  | JobKind.image_predict =>
    match eng input_ref 0 with
    | InferOutcome.ok r => WorkResult.success [r]
    | InferOutcome.transientFail => WorkResult.transient
    | InferOutcome.permanentFail => WorkResult.permanent
  | JobKind.scan_predict =>
    match eng input_ref 0 with
    | InferOutcome.ok r1 =>
      match eng input_ref 1 with
      | InferOutcome.ok r2 => WorkResult.success [r1, r2]
      | InferOutcome.transientFail => WorkResult.transient
      | InferOutcome.permanentFail => WorkResult.permanent
    | InferOutcome.transientFail => WorkResult.transient
    | InferOutcome.permanentFail => WorkResult.permanent

/-- Modelled from the spec: one worker handling one delivered job
message.  `claim` first; if it fails, acknowledge and discard with no
further side effect.  On success: run the inference; on success persist
the results via `complete`; on transient failure `fail(permanent=false)`;
on permanent failure `fail(permanent=true)`, then refund the debited
amount, then `markRefunded`. -/
def processMessage (st : SysState) (jid : Nat) (eng : Engine)
    (maxAttempts : Nat) : SysState :=
  match findJob st.jobs jid with
  | none => st
  | some j =>
    if j.status = JobStatus.queued then
      let st1 := (claim st jid).1
      match runInference eng j.kind j.input_ref with
      | WorkResult.success refs => complete st1 jid refs
      | WorkResult.transient => fail st1 jid false maxAttempts
      | WorkResult.permanent =>
        let st2 := fail st1 jid true maxAttempts
        let l := (refund st2.ledger j.user_id jid
          (debitAmountFor st2.ledger.transactions jid)).1
        markRefunded { st2 with ledger := l } jid
    else st

/-- The empty initial state: no users have credit, no transactions, no
jobs. -/
def initState : SysState :=
  { ledger := { balances := fun _ => 0, transactions := [], nextTxId := 0 }
    jobs := []
    nextJobId := 0 }

/-- A state produced by a topup request (failed topups leave the state
unchanged). -/
def topupStep (st : SysState) (uid : Nat) (amount : Int) : SysState :=
  match topup st.ledger uid amount with
  | Except.error _ => st
  | Except.ok (l, _) => { st with ledger := l }

/-- Reachable states of the pipeline: from the initial state, by topup
requests, submission requests, and worker message deliveries (the broker
is at-least-once, so any `jid` may be delivered at any time, any number
of times, with any engine behaviour and any configured `maxAttempts`). -/
inductive Reachable : SysState → Prop where
  | init : Reachable initState
  | topup (st : SysState) (uid : Nat) (amount : Int) :
      Reachable st → Reachable (topupStep st uid amount)
  | submit (st : SysState) (uid : Nat) (kind : JobKind) (input_ref : String)
      (assetValid : Bool) : Reachable st →
      Reachable (submitPrediction st uid kind input_ref assetValid).1
  | work (st : SysState) (jid : Nat) (eng : Engine) (maxAttempts : Nat) :
      Reachable st → Reachable (processMessage st jid eng maxAttempts)

/-- Number of result references a completed Job of each kind carries
(spec §8: 1 for `image_predict`, 2 for `scan_predict`). -/
def kindArity : JobKind → Nat
  | JobKind.image_predict => 1
  | JobKind.scan_predict => 2

/-! ## Frontend: shared helpers

The definitions below are translated from the JSX sources under
`frontend-service/src`; browser built-ins used by that code
(`parseFloat`, `String.prototype.endsWith`, `localStorage`) are embedded
as explicit Lean functions over the component state. -/

/-- Embeds JS `String.prototype.endsWith`. -/
def strEndsWith (s pat : String) : Bool :=
  List.isSuffixOf pat.data s.data

/-- Value of a list of decimal digit characters. -/
def digitsVal (cs : List Char) : Nat :=
  cs.foldl (fun a c => a * 10 + (c.toNat - 48)) 0

/-- Embeds JS `parseFloat` on finite decimal inputs: leading whitespace
is skipped, then an optional sign, decimal digits with an optional
fractional part and an optional exponent are read as the longest prefix,
any trailing characters are ignored, and `none` (NaN) is returned when no
digits were read.  (JS floats are modelled by exact rationals; the
special literal `Infinity` is outside the model and parses to NaN.) -/
def jsParseFloat (s : String) : Option ℚ :=
  let cs := s.data.dropWhile Char.isWhitespace
  let sgn : Int := match cs with
    | '-' :: _ => -1
    | _ => 1
  let cs1 := match cs with
    | '-' :: r => r
    | '+' :: r => r
    | _ => cs
  let ip := cs1.takeWhile Char.isDigit
  let r1 := cs1.dropWhile Char.isDigit
  let fp := match r1 with
    | '.' :: r => r.takeWhile Char.isDigit
    | _ => []
  let r2 := match r1 with
    | '.' :: r => r.dropWhile Char.isDigit
    | _ => r1
  if ip = [] ∧ fp = [] then none
  else
    let num : Int := sgn * (digitsVal ip * 10 ^ fp.length + digitsVal fp : Nat)
    let den : Nat := 10 ^ fp.length
    let e : Int := match r2 with
      | 'e' :: '-' :: er => -(digitsVal (er.takeWhile Char.isDigit) : Int)
      | 'e' :: '+' :: er => (digitsVal (er.takeWhile Char.isDigit) : Int)
      | 'e' :: er => (digitsVal (er.takeWhile Char.isDigit) : Int)
      | 'E' :: '-' :: er => -(digitsVal (er.takeWhile Char.isDigit) : Int)
      | 'E' :: '+' :: er => (digitsVal (er.takeWhile Char.isDigit) : Int)
      | 'E' :: er => (digitsVal (er.takeWhile Char.isDigit) : Int)
      | _ => 0
    some (if 0 ≤ e then mkRat (num * (10 : Int) ^ e.toNat) den
      else mkRat num (den * 10 ^ (-e).toNat))

/-! ## Frontend: BalanceCard (`current/frontend-service/src/components/BalanceCard.jsx`) -/

/-- The React state of `BalanceCard`: `balance` (null until fetched),
the `amount` input field, `loading`, `error`. -/
structure BalanceCardState where
  balance : Option ℚ
  amount : String
  loading : Bool
  error : Option String
deriving DecidableEq

/-- An HTTP request the BalanceCard issues through the `api` client. -/
inductive ApiRequest where
  | postTopup (amount : ℚ)
  | getBalance
deriving DecidableEq

/-- From `fetchBalance` in `BalanceCard.jsx`: on a successful GET
`/balance` the balance state is set; on any failure the error is only
logged to the console and the state is left untouched. -/
inductive FetchOutcome where
  | ok (b : ℚ)
  | failed
deriving DecidableEq

/-- One run of `fetchBalance` with the given network outcome. -/
def fetchBalance (st : BalanceCardState) (o : FetchOutcome) : BalanceCardState :=
  match o with
  | FetchOutcome.ok b => { st with balance := some b }
  | FetchOutcome.failed => st

/-- What the balance paragraph of `BalanceCard` renders. -/
inductive BalanceDisplay where
  | loadingText
  | credits (b : ℚ)
deriving DecidableEq

/-- From the JSX: `balance !== null ? balance.toFixed(2) + ' credits' :
'Loading...'`. -/
def renderBalance (st : BalanceCardState) : BalanceDisplay :=
  match st.balance with
  | some b => BalanceDisplay.credits b
  | none => BalanceDisplay.loadingText

/-- From `handleTopUp` in `BalanceCard.jsx`: parse the amount field with
`parseFloat`; if the result is NaN or non-positive, throw (caught below:
the error message is shown and nothing is posted); otherwise POST
`/balance/topup` with the parsed amount, clear the field and refetch the
balance.  Returns the new state and the requests issued. -/
def handleTopUp (st : BalanceCardState) : BalanceCardState × List ApiRequest :=
  match jsParseFloat st.amount with
  | none =>
    ({ st with error := some "Enter a valid positive amount", loading := false }, [])
  | some amt =>
    if amt ≤ 0 then
      ({ st with error := some "Enter a valid positive amount", loading := false }, [])
    else
      ({ st with amount := "", error := none, loading := false },
        [ApiRequest.postTopup amt, ApiRequest.getBalance])

/-! ## Frontend: 3D scan page (`frontend-service/src/pages/Scan3DPage.jsx`) -/

/-- A file selected in the browser (`File`): name, byte size, MIME type. -/
structure JsFile where
  name : String
  size : Nat
  ftype : String
deriving DecidableEq

/-- The successful response of POST `/predict/3d-scan` (spec §6): the
fields the client destructures. -/
structure ScanResponse where
  credits_spent : ℚ
  brain_mask_url : String
  aneurysm_mask_url : String
  original_scan_url : String
deriving DecidableEq

/-- The React state of `Scan3DPage` (viewer-selection state omitted). -/
structure Scan3DState where
  file : Option JsFile
  result : Option ScanResponse
  loading : Bool
  error : Option String
  preview : Option JsFile
  showOverlay : Bool
deriving DecidableEq

/-- From `handleFileChange` in `Scan3DPage.jsx`: absent file — no change;
a name ending in neither `.nii.gz` nor `.nii` — set the error and leave
everything else (in particular the selected file) unchanged; otherwise
select the file, clear result and error, and set the preview data. -/
def scan3dHandleFileChange (st : Scan3DState) (f : Option JsFile) : Scan3DState :=
  match f with
  | none => st
  | some f =>
    if strEndsWith f.name ".nii.gz" = false ∧ strEndsWith f.name ".nii" = false then
      { st with error := some "Please upload a NIfTI file (.nii or .nii.gz)" }
    else
      { st with file := some f, result := none, error := none, preview := some f }

/-- From `handlePredict` in `Scan3DPage.jsx`, synchronous part: nothing
happens without a selected file; otherwise the selected file — and only
it — is posted to `/predict/3d-scan`. -/
def scan3dHandlePredict (st : Scan3DState) : Scan3DState × List JsFile :=
  match st.file with
  | none => (st, [])
  | some f => ({ st with loading := true, error := none }, [f])

/-- From `handlePredict` in `Scan3DPage.jsx`, success continuation: the
response is destructured into `credits_spent`, `brain_mask_url`,
`aneurysm_mask_url`, `original_scan_url`, stored as the result, and the
overlay is shown. -/
def scan3dPredictSuccess (st : Scan3DState) (resp : ScanResponse) : Scan3DState :=
  { st with
      result := some
        { credits_spent := resp.credits_spent
          brain_mask_url := resp.brain_mask_url
          aneurysm_mask_url := resp.aneurysm_mask_url
          original_scan_url := resp.original_scan_url }
      showOverlay := true
      loading := false }

/-! ## Frontend: dashboard page (`frontend-service/src/pages/DashboardPage.jsx`) -/

/-- The successful response of POST `/predict` (spec §6): the fields the
client destructures. -/
structure ImageResponse where
  credits_spent : ℚ
  image_prediction : String
deriving DecidableEq

/-- The result record the dashboard builds from the response. -/
structure DashResult where
  credits_spent : ℚ
  mask_url : String
deriving DecidableEq

/-- From `handlePredict` in `DashboardPage.jsx`, success continuation:
the response is destructured into `credits_spent` and `image_prediction`
and stored as the result (the mask url), and the overlay is shown. -/
def dashboardPredictSuccess (_result : Option DashResult) (resp : ImageResponse) :
    Option DashResult :=
  some { credits_spent := resp.credits_spent, mask_url := resp.image_prediction }

/-! ## Frontend: auth context (`frontend-service/src/contexts/AuthContext.jsx`) -/

/-- The client-side authentication state: the React `token` and `user`
states, the browser `localStorage`, and the axios default
`Authorization` header. -/
structure AuthState where
  token : Option String
  user : Option String
  store : List (String × String)
  authHeader : Option String
deriving DecidableEq

/-- Embeds `localStorage.removeItem`. -/
def removeItem (s : List (String × String)) (k : String) : List (String × String) :=
  s.filter (fun p => p.1 != k)

/-- Embeds `localStorage.getItem`. -/
def getItem (s : List (String × String)) (k : String) : Option String :=
  (s.find? (fun p => p.1 == k)).map Prod.snd

/-- From the `useEffect` on `[token]` in `AuthContext.jsx`: with a token
present the axios default `Authorization` header is set to the bearer
token; with no token the header entry is deleted. -/
def tokenEffect (st : AuthState) : AuthState :=
  match st.token with
  | some t => { st with authHeader := some ("Bearer " ++ t) }
  | none => { st with authHeader := none }

/-- From `logout` in `AuthContext.jsx`: the token state is cleared and
the `token` key removed from `localStorage`; React then re-runs the
effect on the changed token. -/
def logout (st : AuthState) : AuthState :=
  tokenEffect { st with token := none, store := removeItem st.store "token" }

/-! ## Concrete scenario runs (spec §8) -/

/-- An inference engine whose calls all succeed. -/
def okEngine : Engine := fun _ _ => InferOutcome.ok "mask-0"

/-- An engine for which the brain-mask call succeeds and the aneurysm
call fails permanently. -/
def scanFailEngine : Engine := fun _ n =>
  if n = 0 then InferOutcome.ok "brain-mask" else InferOutcome.permanentFail

/-- Scenario: user 0 tops up 10.00 credits. -/
def demo1 : SysState := topupStep initState 0 10

/-- Scenario: user 0 submits an `image_predict` costing 2.00. -/
def demo2 : SysState :=
  (submitPrediction demo1 0 JobKind.image_predict "img-1" true).1

/-- Scenario: a worker completes the image job. -/
def demo3 : SysState := processMessage demo2 0 okEngine 3

/-- Scenario: user 0 submits a `scan_predict` costing 5.00. -/
def demo4 : SysState :=
  (submitPrediction demo3 0 JobKind.scan_predict "scan-1" true).1

/-- Scenario: the scan job's aneurysm call fails permanently and the job
is refunded. -/
def demo5 : SysState := processMessage demo4 1 scanFailEngine 3

/-- Scenario: user 1 tops up 1.00 credit (and will be unable to afford a
5.00 scan). -/
def demo6 : SysState := topupStep demo5 1 1

/-- The completed image job of the scenario. -/
def demoImageJob : Job :=
  ⟨0, 0, JobKind.image_predict, "img-1", JobStatus.completed, ["mask-0"], 1⟩

/-- The queued scan job of the scenario, before the worker touches it. -/
def demoQueuedScanJob : Job :=
  ⟨1, 0, JobKind.scan_predict, "scan-1", JobStatus.queued, [], 0⟩

/-- The refunded scan job of the scenario. -/
def demoScanJob : Job :=
  ⟨1, 0, JobKind.scan_predict, "scan-1", JobStatus.refunded, [], 1⟩

/-! ## The pipeline invariant (spec §3 and §8) -/

/-- The global invariant tying the Balance Ledger and the Job Store
together: balances are the sums of applied transactions and never
negative; transaction amounts are non-negative magnitudes and ids fresh;
job ids are unique and fresh; every job-linked transaction points at an
existing Job; every Job has exactly one debit and at most one refund; a
refunded charge implies a `refunded` terminal status and a prior debit;
`result_refs` is empty until completion and then matches the kind. -/
structure Inv (st : SysState) : Prop where
  bal_eq : ∀ uid, st.ledger.balances uid = txSum st.ledger.transactions uid
  bal_nonneg : ∀ uid, 0 ≤ st.ledger.balances uid
  amt_nonneg : ∀ t ∈ st.ledger.transactions, 0 ≤ t.amount
  txid_lt : ∀ t ∈ st.ledger.transactions, t.id < st.ledger.nextTxId
  jobid_lt : ∀ j ∈ st.jobs, j.id < st.nextJobId
  ids_nodup : (st.jobs.map Job.id).Nodup
  tx_job_exists : ∀ t ∈ st.ledger.transactions, ∀ jid, t.job_id = some jid →
    ∃ j ∈ st.jobs, j.id = jid
  debit_unique : ∀ j ∈ st.jobs, countDebit st.ledger.transactions j.id = 1
  refund_atmost : ∀ j ∈ st.jobs, countRefund st.ledger.transactions j.id ≤ 1
  refund_status : ∀ j ∈ st.jobs, countRefund st.ledger.transactions j.id ≠ 0 →
    j.status = JobStatus.refunded
  refund_after_debit : ∀ r ∈ st.ledger.transactions, ∀ jid,
    isRefundFor jid r = true →
    ∃ d ∈ st.ledger.transactions, isDebitFor jid d = true ∧ d.id < r.id
  refs_empty : ∀ j ∈ st.jobs, j.status ≠ JobStatus.completed → j.result_refs = []
  refs_arity : ∀ j ∈ st.jobs, j.status = JobStatus.completed →
    j.result_refs.length = kindArity j.kind

theorem isDebitFor_iff (jid : Nat) (t : Transaction) :
    isDebitFor jid t = true ↔ t.kind = TxKind.debit ∧ t.job_id = some jid := by
  simp [isDebitFor]

theorem isRefundFor_iff (jid : Nat) (t : Transaction) :
    isRefundFor jid t = true ↔ t.kind = TxKind.refund ∧ t.job_id = some jid := by
  simp [isRefundFor]

theorem txSum_append (txs : List Transaction) (t : Transaction) (uid : Nat) :
    txSum (txs ++ [t]) uid = txSum txs uid + txSigned uid t := by
  simp [txSum]

theorem countDebit_append (txs : List Transaction) (t : Transaction) (jid : Nat) :
    countDebit (txs ++ [t]) jid =
      countDebit txs jid + (if isDebitFor jid t then 1 else 0) := by
  simp [countDebit, List.countP_append, List.countP_cons]

theorem countRefund_append (txs : List Transaction) (t : Transaction) (jid : Nat) :
    countRefund (txs ++ [t]) jid =
      countRefund txs jid + (if isRefundFor jid t then 1 else 0) := by
  simp [countRefund, List.countP_append, List.countP_cons]

theorem countRefund_eq_zero_iff (txs : List Transaction) (jid : Nat) :
    countRefund txs jid = 0 ↔ ∀ t ∈ txs, isRefundFor jid t = false := by
  simp [countRefund, List.countP_eq_zero]

theorem findRefund_eq_none_of_count (txs : List Transaction) (jid : Nat)
    (h : countRefund txs jid = 0) : findRefund txs jid = none := by
  rw [countRefund_eq_zero_iff] at h
  rw [findRefund, List.find?_eq_none]
  intro t ht
  simp [h t ht]

theorem countDebit_eq_zero_iff (txs : List Transaction) (jid : Nat) :
    countDebit txs jid = 0 ↔ ∀ t ∈ txs, isDebitFor jid t = false := by
  simp [countDebit, List.countP_eq_zero]

theorem debitAmountFor_nonneg (txs : List Transaction) (jid : Nat)
    (h : ∀ t ∈ txs, 0 ≤ t.amount) : 0 ≤ debitAmountFor txs jid := by
  unfold debitAmountFor
  cases hf : txs.find? (isDebitFor jid) with
  | none => simp
  | some t => exact h t (List.mem_of_find?_eq_some hf)

/-! ### Job list helpers -/

theorem findJob_eq_some (jobs : List Job) (jid : Nat) (j : Job)
    (h : findJob jobs jid = some j) : j ∈ jobs ∧ j.id = jid := by
  refine ⟨List.mem_of_find?_eq_some h, ?_⟩
  have := List.find?_some h
  simpa using this

theorem updateJob_map_id (jobs : List Job) (jid : Nat) (f : Job → Job)
    (hf : ∀ x, x.id = jid → (f x).id = x.id) :
    (updateJob jobs jid f).map Job.id = jobs.map Job.id := by
  induction jobs with
  | nil => rfl
  | cons a l ih =>
    simp only [updateJob, List.map_cons] at ih ⊢
    by_cases h : a.id = jid
    · simp [h, hf a h, ih]
    · simp [h, ih]

theorem mem_updateJob (jobs : List Job) (jid : Nat) (f : Job → Job) (x : Job)
    (hx : x ∈ updateJob jobs jid f) :
    (∃ y ∈ jobs, y.id = jid ∧ x = f y) ∨ (x ∈ jobs ∧ x.id ≠ jid ∧
      ∃ y ∈ jobs, y.id ≠ jid ∧ x = y) := by
  rcases List.mem_map.mp hx with ⟨y, hy, hxy⟩
  by_cases h : y.id = jid
  · exact Or.inl ⟨y, hy, h, by rw [← hxy, if_pos h]⟩
  · right
    rw [if_neg h] at hxy
    exact ⟨hxy ▸ hy, hxy ▸ h, y, hy, h, hxy.symm⟩

theorem unique_job_of_nodup (jobs : List Job) (jid : Nat) (j : Job)
    (hn : (jobs.map Job.id).Nodup) (hfind : findJob jobs jid = some j) :
    ∀ x ∈ jobs, x.id = jid → x = j := by
  obtain ⟨hjmem, hjid⟩ := findJob_eq_some jobs jid j hfind
  intro x hx hxid
  exact List.inj_on_of_nodup_map hn hx hjmem (by rw [hxid, hjid])

/-! ### Preservation of the invariant, step by step -/

theorem inv_init : Inv initState := by
  constructor <;> simp [initState, txSum, countDebit, countRefund]

theorem inv_topup (st : SysState) (uid : Nat) (amount : Int) (h : Inv st) :
    Inv (topupStep st uid amount) := by
  unfold topupStep topup
  by_cases hamt : amount ≤ 0
  · simpa [hamt] using h
  · rw [if_neg hamt]
    have hpos : 0 < amount := lt_of_not_le hamt
    constructor
    · intro u
      show setBal st.ledger.balances uid (st.ledger.balances uid + amount) u =
        txSum (st.ledger.transactions ++
          [⟨st.ledger.nextTxId, uid, TxKind.topup, amount, none⟩]) u
      rw [txSum_append]
      by_cases hc : u = uid
      · simp [setBal, txSigned, hc, h.bal_eq uid]
      · simp [setBal, txSigned, hc, h.bal_eq u]
        intro hh
        exact ((hc hh.symm).elim : amount = 0)
    · intro u
      show 0 ≤ setBal st.ledger.balances uid (st.ledger.balances uid + amount) u
      by_cases hc : u = uid
      · simp only [setBal, hc, if_pos rfl]
        have := h.bal_nonneg uid
        omega
      · simpa [setBal, hc] using h.bal_nonneg u
    · intro t ht
      rcases List.mem_append.mp ht with hm | hm
      · exact h.amt_nonneg t hm
      · simp only [List.mem_singleton] at hm
        subst hm
        show (0 : Int) ≤ amount
        omega
    · intro t ht
      rcases List.mem_append.mp ht with hm | hm
      · have := h.txid_lt t hm
        show t.id < st.ledger.nextTxId + 1
        omega
      · simp only [List.mem_singleton] at hm
        subst hm
        show st.ledger.nextTxId < st.ledger.nextTxId + 1
        omega
    · exact h.jobid_lt
    · exact h.ids_nodup
    · intro t ht jid hjid
      rcases List.mem_append.mp ht with hm | hm
      · exact h.tx_job_exists t hm jid hjid
      · simp only [List.mem_singleton] at hm
        subst hm
        simp at hjid
    · intro j hj
      show countDebit (st.ledger.transactions ++
        [⟨st.ledger.nextTxId, uid, TxKind.topup, amount, none⟩]) j.id = 1
      rw [countDebit_append]
      simp [isDebitFor, h.debit_unique j hj]
    · intro j hj
      show countRefund (st.ledger.transactions ++
        [⟨st.ledger.nextTxId, uid, TxKind.topup, amount, none⟩]) j.id ≤ 1
      rw [countRefund_append]
      simpa [isRefundFor] using h.refund_atmost j hj
    · intro j hj hcnt
      have hcnt' : countRefund (st.ledger.transactions ++
          [⟨st.ledger.nextTxId, uid, TxKind.topup, amount, none⟩]) j.id ≠ 0 := hcnt
      rw [countRefund_append] at hcnt'
      apply h.refund_status j hj
      simpa [isRefundFor] using hcnt'
    · intro r hr jid hrf
      rcases List.mem_append.mp hr with hm | hm
      · obtain ⟨d, hd, hdf, hdlt⟩ := h.refund_after_debit r hm jid hrf
        exact ⟨d, List.mem_append_left _ hd, hdf, hdlt⟩
      · simp only [List.mem_singleton] at hm
        subst hm
        simp [isRefundFor] at hrf
    · exact h.refs_empty
    · exact h.refs_arity

theorem inv_submit (st : SysState) (uid : Nat) (kind : JobKind)
    (input_ref : String) (assetValid : Bool) (h : Inv st) :
    Inv (submitPrediction st uid kind input_ref assetValid).1 := by
  unfold submitPrediction debit
  by_cases hv : assetValid = false
  · simpa [hv] using h
  · rw [if_neg hv]
    by_cases hbal : st.ledger.balances uid < costOf kind
    · simpa [hbal] using h
    · rw [if_neg hbal]
      have hcost : 0 ≤ costOf kind := by cases kind <;> simp [costOf]
      have hno_tx : ∀ t ∈ st.ledger.transactions, t.job_id ≠ some st.nextJobId := by
        intro t ht heq
        obtain ⟨j, hj, hjid⟩ := h.tx_job_exists t ht st.nextJobId heq
        have := h.jobid_lt j hj
        omega
      have hzeroD : countDebit st.ledger.transactions st.nextJobId = 0 := by
        rw [countDebit_eq_zero_iff]
        intro t ht
        rcases hb : isDebitFor st.nextJobId t with _ | _
        · rfl
        · exact absurd ((isDebitFor_iff _ t).mp hb).2 (hno_tx t ht)
      have hzeroR : countRefund st.ledger.transactions st.nextJobId = 0 := by
        rw [countRefund_eq_zero_iff]
        intro t ht
        rcases hb : isRefundFor st.nextJobId t with _ | _
        · rfl
        · exact absurd ((isRefundFor_iff _ t).mp hb).2 (hno_tx t ht)
      constructor
      · intro u
        show setBal st.ledger.balances uid
            (st.ledger.balances uid - costOf kind) u =
          txSum (st.ledger.transactions ++
            [⟨st.ledger.nextTxId, uid, TxKind.debit, costOf kind,
              some st.nextJobId⟩]) u
        rw [txSum_append]
        by_cases hc : u = uid
        · simp [setBal, txSigned, hc, h.bal_eq uid]
          omega
        · simp [setBal, txSigned, hc, h.bal_eq u]
          intro hh
          exact ((hc hh.symm).elim : costOf kind = 0)
      · intro u
        show 0 ≤ setBal st.ledger.balances uid
          (st.ledger.balances uid - costOf kind) u
        by_cases hc : u = uid
        · simp only [setBal, hc, if_pos rfl]
          have hle : costOf kind ≤ st.ledger.balances uid := not_lt.mp hbal
          omega
        · simpa [setBal, hc] using h.bal_nonneg u
      · intro t ht
        rcases List.mem_append.mp ht with hm | hm
        · exact h.amt_nonneg t hm
        · simp only [List.mem_singleton] at hm
          subst hm
          exact hcost
      · intro t ht
        rcases List.mem_append.mp ht with hm | hm
        · have := h.txid_lt t hm
          show t.id < st.ledger.nextTxId + 1
          omega
        · simp only [List.mem_singleton] at hm
          subst hm
          show st.ledger.nextTxId < st.ledger.nextTxId + 1
          omega
      · intro j hj
        rcases List.mem_append.mp hj with hm | hm
        · have := h.jobid_lt j hm
          show j.id < st.nextJobId + 1
          omega
        · simp only [List.mem_singleton] at hm
          subst hm
          show st.nextJobId < st.nextJobId + 1
          omega
      · have hnotmem : st.nextJobId ∉ st.jobs.map Job.id := by
          intro hmem
          rcases List.mem_map.mp hmem with ⟨j, hj, hjid⟩
          have := h.jobid_lt j hj
          omega
        show ((st.jobs ++
          [(⟨st.nextJobId, uid, kind, input_ref, JobStatus.queued, [], 0⟩ : Job)]).map
            Job.id).Nodup
        rw [List.map_append]
        simp [List.nodup_append, h.ids_nodup, hnotmem]
      · intro t ht jid hjid
        rcases List.mem_append.mp ht with hm | hm
        · obtain ⟨j, hj, hje⟩ := h.tx_job_exists t hm jid hjid
          exact ⟨j, List.mem_append_left _ hj, hje⟩
        · simp only [List.mem_singleton] at hm
          subst hm
          have hjid' : st.nextJobId = jid := by simpa using hjid
          subst hjid'
          exact ⟨⟨st.nextJobId, uid, kind, input_ref, JobStatus.queued, [], 0⟩,
            List.mem_append_right _ (List.mem_singleton.mpr rfl), rfl⟩
      · intro j hj
        rcases List.mem_append.mp hj with hm | hm
        · show countDebit (st.ledger.transactions ++
            [⟨st.ledger.nextTxId, uid, TxKind.debit, costOf kind,
              some st.nextJobId⟩]) j.id = 1
          rw [countDebit_append]
          have hne : st.nextJobId ≠ j.id := by
            have := h.jobid_lt j hm
            omega
          simp [isDebitFor, hne, h.debit_unique j hm]
        · simp only [List.mem_singleton] at hm
          subst hm
          show countDebit (st.ledger.transactions ++
            [⟨st.ledger.nextTxId, uid, TxKind.debit, costOf kind,
              some st.nextJobId⟩]) st.nextJobId = 1
          rw [countDebit_append]
          simp [isDebitFor, hzeroD]
      · intro j hj
        rcases List.mem_append.mp hj with hm | hm
        · show countRefund (st.ledger.transactions ++
            [⟨st.ledger.nextTxId, uid, TxKind.debit, costOf kind,
              some st.nextJobId⟩]) j.id ≤ 1
          rw [countRefund_append]
          simpa [isRefundFor] using h.refund_atmost j hm
        · simp only [List.mem_singleton] at hm
          subst hm
          show countRefund (st.ledger.transactions ++
            [⟨st.ledger.nextTxId, uid, TxKind.debit, costOf kind,
              some st.nextJobId⟩]) st.nextJobId ≤ 1
          rw [countRefund_append]
          simp [isRefundFor, hzeroR]
      · intro j hj hcnt
        rcases List.mem_append.mp hj with hm | hm
        · apply h.refund_status j hm
          have hcnt' : countRefund (st.ledger.transactions ++
              [⟨st.ledger.nextTxId, uid, TxKind.debit, costOf kind,
                some st.nextJobId⟩]) j.id ≠ 0 := hcnt
          rw [countRefund_append] at hcnt'
          simpa [isRefundFor] using hcnt'
        · simp only [List.mem_singleton] at hm
          subst hm
          exfalso
          apply hcnt
          show countRefund (st.ledger.transactions ++
            [⟨st.ledger.nextTxId, uid, TxKind.debit, costOf kind,
              some st.nextJobId⟩]) st.nextJobId = 0
          rw [countRefund_append]
          simp [isRefundFor, hzeroR]
      · intro r hr jid hrf
        rcases List.mem_append.mp hr with hm | hm
        · obtain ⟨d, hd, hdf, hdlt⟩ := h.refund_after_debit r hm jid hrf
          exact ⟨d, List.mem_append_left _ hd, hdf, hdlt⟩
        · simp only [List.mem_singleton] at hm
          subst hm
          simp [isRefundFor] at hrf
      · intro j hj
        rcases List.mem_append.mp hj with hm | hm
        · exact h.refs_empty j hm
        · simp only [List.mem_singleton] at hm
          subst hm
          intro _
          rfl
      · intro j hj
        rcases List.mem_append.mp hj with hm | hm
        · exact h.refs_arity j hm
        · simp only [List.mem_singleton] at hm
          subst hm
          intro hst
          simp at hst

theorem updateJob_updateJob (jobs : List Job) (jid : Nat) (f g : Job → Job)
    (hf : ∀ x, x.id = jid → (f x).id = x.id) :
    updateJob (updateJob jobs jid f) jid g =
      updateJob jobs jid (fun x => g (f x)) := by
  induction jobs with
  | nil => rfl
  | cons a l ih =>
    simp only [updateJob, List.map_cons] at ih ⊢
    by_cases h : a.id = jid
    · rw [if_pos h, if_pos h, if_pos (by rw [hf a h, h]), ih]
    · rw [if_neg h, if_neg h, if_neg h, ih]

theorem mem_updateJob_of_ne (jobs : List Job) (jid : Nat) (f : Job → Job)
    (y : Job) (hy : y ∈ jobs) (hne : y.id ≠ jid) :
    y ∈ updateJob jobs jid f := by
  unfold updateJob
  have : y = if y.id = jid then f y else y := by rw [if_neg hne]
  exact this ▸ List.mem_map_of_mem _ hy

theorem self_mem_updateJob (jobs : List Job) (jid : Nat) (f : Job → Job)
    (y : Job) (hy : y ∈ jobs) (heq : y.id = jid) :
    f y ∈ updateJob jobs jid f := by
  unfold updateJob
  have : f y = if y.id = jid then f y else y := by rw [if_pos heq]
  exact this ▸ List.mem_map_of_mem _ hy

theorem updateJob_congr (jobs : List Job) (jid : Nat) (f g : Job → Job) (j : Job)
    (hn : (jobs.map Job.id).Nodup) (hfind : findJob jobs jid = some j)
    (hfg : f j = g j) : updateJob jobs jid f = updateJob jobs jid g := by
  unfold updateJob
  have huniq := unique_job_of_nodup jobs jid j hn hfind
  induction jobs with
  | nil => rfl
  | cons a l ih =>
    simp only [List.map_cons]
    by_cases h : a.id = jid
    · rw [if_pos h, if_pos h, huniq a (List.mem_cons_self a l) h, hfg]
      congr 1
      apply List.map_congr_left
      intro x hx
      by_cases hxj : x.id = jid
      · rw [if_pos hxj, if_pos hxj, huniq x (List.mem_cons_of_mem a hx) hxj, hfg]
      · rw [if_neg hxj, if_neg hxj]
    · rw [if_neg h, if_neg h]
      congr 1
      apply List.map_congr_left
      intro x hx
      by_cases hxj : x.id = jid
      · rw [if_pos hxj, if_pos hxj, huniq x (List.mem_cons_of_mem a hx) hxj, hfg]
      · rw [if_neg hxj, if_neg hxj]

/-! ### The shapes of the worker step -/

theorem claim_unknown (st : SysState) (jid : Nat)
    (h : findJob st.jobs jid = none) : claim st jid = (st, false) := by
  unfold claim
  rw [h]

theorem claim_not_queued (st : SysState) (jid : Nat) (j : Job)
    (h : findJob st.jobs jid = some j) (hs : j.status ≠ JobStatus.queued) :
    claim st jid = (st, false) := by
  unfold claim
  simp only [h]
  rw [if_neg hs]

theorem claim_queued (st : SysState) (jid : Nat) (j : Job)
    (h : findJob st.jobs jid = some j) (hs : j.status = JobStatus.queued) :
    claim st jid = ({ st with jobs := updateJob st.jobs jid (fun x =>
      { x with status := JobStatus.processing
               attempt_count := x.attempt_count + 1 }) }, true) := by
  unfold claim
  simp only [h]
  rw [if_pos hs]

theorem processMessage_unknown (st : SysState) (jid : Nat) (eng : Engine)
    (maxA : Nat) (h : findJob st.jobs jid = none) :
    processMessage st jid eng maxA = st := by
  unfold processMessage
  rw [h]

theorem processMessage_not_queued (st : SysState) (jid : Nat) (eng : Engine)
    (maxA : Nat) (j : Job) (h : findJob st.jobs jid = some j)
    (hs : j.status ≠ JobStatus.queued) :
    processMessage st jid eng maxA = st := by
  unfold processMessage
  simp only [h]
  rw [if_neg hs]

theorem runInference_success_shape (eng : Engine) (kind : JobKind)
    (input_ref : String) (refs : List String)
    (h : runInference eng kind input_ref = WorkResult.success refs) :
    refs.length = kindArity kind ∧ refs ≠ [] := by
  unfold runInference at h
  cases kind with
  | image_predict =>
    cases h0 : eng input_ref 0 <;> rw [h0] at h <;> cases h
    simp [kindArity]
  | scan_predict =>
    cases h0 : eng input_ref 0 <;> rw [h0] at h
    · cases h1 : eng input_ref 1 <;> rw [h1] at h <;> cases h
      simp [kindArity]
    · cases h
    · cases h

theorem processMessage_success (st : SysState) (jid : Nat) (eng : Engine)
    (maxA : Nat) (j : Job) (refs : List String)
    (hn : (st.jobs.map Job.id).Nodup)
    (hfind : findJob st.jobs jid = some j) (hq : j.status = JobStatus.queued)
    (hrun : runInference eng j.kind j.input_ref = WorkResult.success refs) :
    processMessage st jid eng maxA = { st with jobs := updateJob st.jobs jid (fun _ =>
      { j with status := JobStatus.completed
               result_refs := refs
               attempt_count := j.attempt_count + 1 }) } := by
  unfold processMessage
  simp only [hfind]
  rw [if_pos hq]
  simp only [claim_queued st jid j hfind hq, hrun]
  unfold complete
  congr 1
  dsimp only
  unfold updateJob
  rw [List.map_map]
  apply List.map_congr_left
  intro x hx
  have hjid : j.id = jid := (findJob_eq_some st.jobs jid j hfind).2
  by_cases hxj : x.id = jid
  · rw [unique_job_of_nodup st.jobs jid j hn hfind x hx hxj]
    simp [Function.comp, hjid]
  · simp [Function.comp, hxj]

theorem processMessage_transient (st : SysState) (jid : Nat) (eng : Engine)
    (maxA : Nat) (j : Job)
    (hn : (st.jobs.map Job.id).Nodup)
    (hfind : findJob st.jobs jid = some j) (hq : j.status = JobStatus.queued)
    (hrun : runInference eng j.kind j.input_ref = WorkResult.transient) :
    processMessage st jid eng maxA = { st with jobs := updateJob st.jobs jid (fun _ =>
      { j with
        status := if j.attempt_count + 1 < maxA then JobStatus.queued
          else JobStatus.failed
        attempt_count := j.attempt_count + 1 }) } := by
  unfold processMessage
  simp only [hfind]
  rw [if_pos hq]
  simp only [claim_queued st jid j hfind hq, hrun]
  unfold fail
  congr 1
  dsimp only
  unfold updateJob
  rw [List.map_map]
  apply List.map_congr_left
  intro x hx
  have hjid : j.id = jid := (findJob_eq_some st.jobs jid j hfind).2
  by_cases hxj : x.id = jid
  · rw [unique_job_of_nodup st.jobs jid j hn hfind x hx hxj]
    by_cases hc : j.attempt_count + 1 < maxA <;> simp [Function.comp, hjid, hc]
  · simp [Function.comp, hxj]

theorem processMessage_permanent (st : SysState) (jid : Nat) (eng : Engine)
    (maxA : Nat) (j : Job)
    (hn : (st.jobs.map Job.id).Nodup)
    (hfind : findJob st.jobs jid = some j) (hq : j.status = JobStatus.queued)
    (hrun : runInference eng j.kind j.input_ref = WorkResult.permanent)
    (hnoref : findRefund st.ledger.transactions jid = none) :
    processMessage st jid eng maxA =
      { ledger :=
          { balances := (setBal st.ledger.balances j.user_id
              (st.ledger.balances j.user_id +
                debitAmountFor st.ledger.transactions jid))
            transactions := (st.ledger.transactions ++
              [⟨st.ledger.nextTxId, j.user_id, TxKind.refund,
                debitAmountFor st.ledger.transactions jid, some jid⟩])
            nextTxId := st.ledger.nextTxId + 1 }
        jobs := (updateJob st.jobs jid (fun _ =>
          { j with status := JobStatus.refunded
                   attempt_count := j.attempt_count + 1 }))
        nextJobId := st.nextJobId } := by
  unfold processMessage
  simp only [hfind]
  rw [if_pos hq]
  simp only [claim_queued st jid j hfind hq, hrun]
  unfold fail markRefunded refund
  simp only [hnoref]
  congr 1
  dsimp only
  unfold updateJob
  rw [List.map_map, List.map_map]
  apply List.map_congr_left
  intro x hx
  have hjid : j.id = jid := (findJob_eq_some st.jobs jid j hfind).2
  by_cases hxj : x.id = jid
  · rw [unique_job_of_nodup st.jobs jid j hn hfind x hx hxj]
    simp [Function.comp, hjid]
  · simp [Function.comp, hxj]

theorem countRefund_zero_of_not_refunded (st : SysState) (j : Job) (h : Inv st)
    (hj : j ∈ st.jobs) (hs : j.status ≠ JobStatus.refunded) :
    countRefund st.ledger.transactions j.id = 0 := by
  by_contra hne
  exact hs (h.refund_status j hj hne)

theorem inv_update_queued (st : SysState) (jid : Nat) (j jF : Job) (h : Inv st)
    (hfind : findJob st.jobs jid = some j) (hq : j.status = JobStatus.queued)
    (hid : jF.id = j.id) (_hkind : jF.kind = j.kind)
    (hrefs1 : jF.status ≠ JobStatus.completed → jF.result_refs = [])
    (hrefs2 : jF.status = JobStatus.completed →
      jF.result_refs.length = kindArity jF.kind) :
    Inv { st with jobs := updateJob st.jobs jid (fun _ => jF) } := by
  obtain ⟨hjmem, hjid⟩ := findJob_eq_some st.jobs jid j hfind
  have hqne : j.status ≠ JobStatus.refunded := by
    rw [hq]
    exact fun hc => JobStatus.noConfusion hc
  have hzeroR : countRefund st.ledger.transactions j.id = 0 :=
    countRefund_zero_of_not_refunded st j h hjmem hqne
  constructor
  · exact h.bal_eq
  · exact h.bal_nonneg
  · exact h.amt_nonneg
  · exact h.txid_lt
  · intro x hx
    rcases mem_updateJob _ _ _ x hx with ⟨y, hy, hyid, hxeq⟩ | ⟨hxmem, _, _⟩
    · rw [hxeq, hid]
      exact h.jobid_lt j hjmem
    · exact h.jobid_lt x hxmem
  · have hmapid : (updateJob st.jobs jid (fun _ => jF)).map Job.id =
        st.jobs.map Job.id :=
      updateJob_map_id st.jobs jid _ (fun x hx => by rw [hid, hjid, hx])
    show ((updateJob st.jobs jid (fun _ => jF)).map Job.id).Nodup
    rw [hmapid]
    exact h.ids_nodup
  · intro t ht jid' hjid'
    obtain ⟨y, hy, hye⟩ := h.tx_job_exists t ht jid' hjid'
    by_cases hyj : y.id = jid
    · refine ⟨jF, self_mem_updateJob st.jobs jid _ y hy hyj, ?_⟩
      rw [hid, hjid, ← hyj]
      exact hye
    · exact ⟨y, mem_updateJob_of_ne st.jobs jid _ y hy hyj, hye⟩
  · intro x hx
    rcases mem_updateJob _ _ _ x hx with ⟨y, hy, hyid, hxeq⟩ | ⟨hxmem, _, _⟩
    · show countDebit st.ledger.transactions x.id = 1
      rw [hxeq, hid]
      exact h.debit_unique j hjmem
    · exact h.debit_unique x hxmem
  · intro x hx
    rcases mem_updateJob _ _ _ x hx with ⟨y, hy, hyid, hxeq⟩ | ⟨hxmem, _, _⟩
    · show countRefund st.ledger.transactions x.id ≤ 1
      rw [hxeq, hid]
      exact h.refund_atmost j hjmem
    · exact h.refund_atmost x hxmem
  · intro x hx hcnt
    rcases mem_updateJob _ _ _ x hx with ⟨y, hy, hyid, hxeq⟩ | ⟨hxmem, _, _⟩
    · exfalso
      have hcnt' : countRefund st.ledger.transactions x.id ≠ 0 := hcnt
      rw [hxeq, hid] at hcnt'
      exact hcnt' hzeroR
    · exact h.refund_status x hxmem hcnt
  · exact h.refund_after_debit
  · intro x hx hs
    rcases mem_updateJob _ _ _ x hx with ⟨y, hy, hyid, hxeq⟩ | ⟨hxmem, _, _⟩
    · rw [hxeq]
      exact hrefs1 (hxeq ▸ hs)
    · exact h.refs_empty x hxmem hs
  · intro x hx hs
    rcases mem_updateJob _ _ _ x hx with ⟨y, hy, hyid, hxeq⟩ | ⟨hxmem, _, _⟩
    · rw [hxeq]
      exact hrefs2 (hxeq ▸ hs)
    · exact h.refs_arity x hxmem hs

theorem inv_refund_path (st : SysState) (jid : Nat) (j : Job) (h : Inv st)
    (hfind : findJob st.jobs jid = some j) (hq : j.status = JobStatus.queued) :
    Inv
      { ledger :=
          { balances := (setBal st.ledger.balances j.user_id
              (st.ledger.balances j.user_id +
                debitAmountFor st.ledger.transactions jid))
            transactions := (st.ledger.transactions ++
              [⟨st.ledger.nextTxId, j.user_id, TxKind.refund,
                debitAmountFor st.ledger.transactions jid, some jid⟩])
            nextTxId := st.ledger.nextTxId + 1 }
        jobs := (updateJob st.jobs jid (fun _ =>
          { j with status := JobStatus.refunded
                   attempt_count := j.attempt_count + 1 }))
        nextJobId := st.nextJobId } := by
  obtain ⟨hjmem, hjid⟩ := findJob_eq_some st.jobs jid j hfind
  have hqne : j.status ≠ JobStatus.refunded := by
    rw [hq]
    exact fun hc => JobStatus.noConfusion hc
  have hzeroR : countRefund st.ledger.transactions j.id = 0 :=
    countRefund_zero_of_not_refunded st j h hjmem hqne
  have ha : 0 ≤ debitAmountFor st.ledger.transactions jid :=
    debitAmountFor_nonneg _ _ h.amt_nonneg
  have hdebit : ∃ d ∈ st.ledger.transactions, isDebitFor jid d = true := by
    have h1 := h.debit_unique j hjmem
    rw [hjid] at h1
    have : 0 < countDebit st.ledger.transactions jid := by omega
    exact List.countP_pos_iff.mp this
  constructor
  · intro u
    show setBal st.ledger.balances j.user_id
        (st.ledger.balances j.user_id +
          debitAmountFor st.ledger.transactions jid) u =
      txSum (st.ledger.transactions ++
        [⟨st.ledger.nextTxId, j.user_id, TxKind.refund,
          debitAmountFor st.ledger.transactions jid, some jid⟩]) u
    rw [txSum_append]
    by_cases hc : u = j.user_id
    · simp [setBal, txSigned, hc, h.bal_eq j.user_id]
    · simp [setBal, txSigned, hc, h.bal_eq u]
      intro hh
      exact ((hc hh.symm).elim : debitAmountFor st.ledger.transactions jid = 0)
  · intro u
    show 0 ≤ setBal st.ledger.balances j.user_id
      (st.ledger.balances j.user_id +
        debitAmountFor st.ledger.transactions jid) u
    by_cases hc : u = j.user_id
    · simp only [setBal, hc, if_pos rfl]
      have := h.bal_nonneg j.user_id
      omega
    · simpa [setBal, hc] using h.bal_nonneg u
  · intro t ht
    rcases List.mem_append.mp ht with hm | hm
    · exact h.amt_nonneg t hm
    · simp only [List.mem_singleton] at hm
      subst hm
      exact ha
  · intro t ht
    rcases List.mem_append.mp ht with hm | hm
    · have := h.txid_lt t hm
      show t.id < st.ledger.nextTxId + 1
      omega
    · simp only [List.mem_singleton] at hm
      subst hm
      show st.ledger.nextTxId < st.ledger.nextTxId + 1
      omega
  · intro x hx
    rcases mem_updateJob _ _ _ x hx with ⟨y, hy, hyid, rfl⟩ | ⟨hxmem, _, _⟩
    · show j.id < st.nextJobId
      exact h.jobid_lt j hjmem
    · exact h.jobid_lt x hxmem
  · have hmapid : (updateJob st.jobs jid (fun _ =>
        { j with status := JobStatus.refunded
                 attempt_count := j.attempt_count + 1 })).map Job.id =
        st.jobs.map Job.id :=
      updateJob_map_id st.jobs jid _ (fun x hx => by
        show j.id = x.id
        rw [hjid, hx])
    show ((updateJob st.jobs jid _).map Job.id).Nodup
    rw [hmapid]
    exact h.ids_nodup
  · intro t ht jid' hjid'
    rcases List.mem_append.mp ht with hm | hm
    · obtain ⟨y, hy, hye⟩ := h.tx_job_exists t hm jid' hjid'
      by_cases hyj : y.id = jid
      · refine ⟨_, self_mem_updateJob st.jobs jid _ y hy hyj, ?_⟩
        show j.id = jid'
        rw [hjid, ← hyj]
        exact hye
      · exact ⟨y, mem_updateJob_of_ne st.jobs jid _ y hy hyj, hye⟩
    · simp only [List.mem_singleton] at hm
      subst hm
      have hjid'' : jid = jid' := by simpa using hjid'
      subst hjid''
      refine ⟨_, self_mem_updateJob st.jobs jid _ j hjmem hjid, ?_⟩
      show j.id = jid
      exact hjid
  · intro x hx
    rcases mem_updateJob _ _ _ x hx with ⟨y, hy, hyid, rfl⟩ | ⟨hxmem, hxne, _⟩
    · show countDebit (st.ledger.transactions ++
        [⟨st.ledger.nextTxId, j.user_id, TxKind.refund,
          debitAmountFor st.ledger.transactions jid, some jid⟩]) j.id = 1
      rw [countDebit_append]
      simp [isDebitFor, h.debit_unique j hjmem]
    · show countDebit (st.ledger.transactions ++
        [⟨st.ledger.nextTxId, j.user_id, TxKind.refund,
          debitAmountFor st.ledger.transactions jid, some jid⟩]) x.id = 1
      rw [countDebit_append]
      simp [isDebitFor, h.debit_unique x hxmem]
  · intro x hx
    rcases mem_updateJob _ _ _ x hx with ⟨y, hy, hyid, rfl⟩ | ⟨hxmem, hxne, _⟩
    · show countRefund (st.ledger.transactions ++
        [⟨st.ledger.nextTxId, j.user_id, TxKind.refund,
          debitAmountFor st.ledger.transactions jid, some jid⟩]) j.id ≤ 1
      rw [countRefund_append]
      have hz : countRefund st.ledger.transactions jid = 0 := by
        rw [← hjid]
        exact hzeroR
      simp [isRefundFor, hjid, hz]
    · show countRefund (st.ledger.transactions ++
        [⟨st.ledger.nextTxId, j.user_id, TxKind.refund,
          debitAmountFor st.ledger.transactions jid, some jid⟩]) x.id ≤ 1
      rw [countRefund_append]
      have hne : jid ≠ x.id := Ne.symm hxne
      simpa [isRefundFor, hne] using h.refund_atmost x hxmem
  · intro x hx hcnt
    rcases mem_updateJob _ _ _ x hx with ⟨y, hy, hyid, rfl⟩ | ⟨hxmem, hxne, _⟩
    · rfl
    · apply h.refund_status x hxmem
      have hcnt' : countRefund (st.ledger.transactions ++
          [⟨st.ledger.nextTxId, j.user_id, TxKind.refund,
            debitAmountFor st.ledger.transactions jid, some jid⟩]) x.id ≠ 0 := hcnt
      rw [countRefund_append] at hcnt'
      have hne : jid ≠ x.id := Ne.symm hxne
      simpa [isRefundFor, hne] using hcnt'
  · intro r hr jid' hrf
    rcases List.mem_append.mp hr with hm | hm
    · obtain ⟨d, hd, hdf, hdlt⟩ := h.refund_after_debit r hm jid' hrf
      exact ⟨d, List.mem_append_left _ hd, hdf, hdlt⟩
    · simp only [List.mem_singleton] at hm
      subst hm
      have hjid'' : jid' = jid := by
        have := (isRefundFor_iff jid' _).mp hrf
        simpa using this.2.symm
      subst hjid''
      obtain ⟨d, hd, hdf⟩ := hdebit
      exact ⟨d, List.mem_append_left _ hd, hdf, h.txid_lt d hd⟩
  · intro x hx hs
    rcases mem_updateJob _ _ _ x hx with ⟨y, hy, hyid, rfl⟩ | ⟨hxmem, _, _⟩
    · show j.result_refs = []
      exact h.refs_empty j hjmem (by
        rw [hq]
        exact fun hc => JobStatus.noConfusion hc)
    · exact h.refs_empty x hxmem hs
  · intro x hx hs
    rcases mem_updateJob _ _ _ x hx with ⟨y, hy, hyid, rfl⟩ | ⟨hxmem, _, _⟩
    · exact absurd hs (fun hc => JobStatus.noConfusion hc)
    · exact h.refs_arity x hxmem hs

theorem inv_work (st : SysState) (jid : Nat) (eng : Engine) (maxA : Nat)
    (h : Inv st) : Inv (processMessage st jid eng maxA) := by
  cases hfind : findJob st.jobs jid with
  | none =>
    rw [processMessage_unknown st jid eng maxA hfind]
    exact h
  | some j =>
    by_cases hq : j.status = JobStatus.queued
    · cases hrun : runInference eng j.kind j.input_ref with
      | success refs =>
        rw [processMessage_success st jid eng maxA j refs h.ids_nodup hfind hq hrun]
        apply inv_update_queued st jid j
          { j with status := JobStatus.completed
                   result_refs := refs
                   attempt_count := j.attempt_count + 1 } h hfind hq rfl rfl
        · intro hc
          exact absurd rfl hc
        · intro _
          exact (runInference_success_shape eng j.kind j.input_ref refs hrun).1
      | transient =>
        rw [processMessage_transient st jid eng maxA j h.ids_nodup hfind hq hrun]
        apply inv_update_queued st jid j
          { j with
            status := if j.attempt_count + 1 < maxA then JobStatus.queued
              else JobStatus.failed
            attempt_count := j.attempt_count + 1 } h hfind hq rfl rfl
        · intro _
          exact h.refs_empty j (findJob_eq_some st.jobs jid j hfind).1 (by
            rw [hq]
            exact fun hc => JobStatus.noConfusion hc)
        · intro hc
          by_cases hc' : j.attempt_count + 1 < maxA <;> simp [hc'] at hc
      | permanent =>
        have hqne : j.status ≠ JobStatus.refunded := by
          rw [hq]
          exact fun hc => JobStatus.noConfusion hc
        have hzeroR : countRefund st.ledger.transactions j.id = 0 :=
          countRefund_zero_of_not_refunded st j h
            (findJob_eq_some st.jobs jid j hfind).1 hqne
        have hnoref : findRefund st.ledger.transactions jid = none := by
          apply findRefund_eq_none_of_count
          rw [← (findJob_eq_some st.jobs jid j hfind).2]
          exact hzeroR
        rw [processMessage_permanent st jid eng maxA j h.ids_nodup hfind hq
          hrun hnoref]
        exact inv_refund_path st jid j h hfind hq
    · rw [processMessage_not_queued st jid eng maxA j hfind hq]
      exact h

/-- Every reachable state of the pipeline satisfies the global invariant. -/
theorem reachable_inv (st : SysState) (h : Reachable st) : Inv st := by
  induction h with
  | init => exact inv_init
  | topup st uid amount _ ih => exact inv_topup st uid amount ih
  | submit st uid kind input_ref assetValid _ ih =>
    exact inv_submit st uid kind input_ref assetValid ih
  | work st jid eng maxA _ ih => exact inv_work st jid eng maxA ih

/-! ### Remaining helper lemmas -/

theorem find_cons_pos {α : Type} (p : α → Bool) (a : α) (l : List α)
    (h : p a = true) : List.find? p (a :: l) = some a := by
  simp [List.find?_cons, h]

theorem find_cons_neg {α : Type} (p : α → Bool) (a : α) (l : List α)
    (h : p a = false) : List.find? p (a :: l) = List.find? p l := by
  simp [List.find?_cons, h]

theorem findJob_updateJob (jobs : List Job) (jid : Nat) (f : Job → Job) (j : Job)
    (hf : (f j).id = j.id) (hjid : j.id = jid)
    (hfind : findJob jobs jid = some j) :
    findJob (updateJob jobs jid f) jid = some (f j) := by
  unfold findJob at hfind ⊢
  unfold updateJob
  induction jobs with
  | nil => cases hfind
  | cons a l ih =>
    simp only [List.map_cons]
    by_cases ha : a.id = jid
    · rw [find_cons_pos (fun x : Job => x.id == jid) a l (beq_iff_eq.mpr ha)] at hfind
      injection hfind with hja
      rw [if_pos ha]
      rw [find_cons_pos (fun x : Job => x.id == jid) _ _
        (beq_iff_eq.mpr (by rw [hja, hf, hjid]))]
      rw [hja]
    · rw [if_neg ha]
      rw [find_cons_neg (fun x : Job => x.id == jid) a l (by simp [ha])] at hfind
      rw [find_cons_neg (fun x : Job => x.id == jid) _ _ (by simp [ha])]
      exact ih hfind

theorem getItem_removeItem_self (s : List (String × String)) (k : String) :
    getItem (removeItem s k) k = none := by
  unfold getItem removeItem
  have hfind : List.find? (fun p => p.1 == k)
      (s.filter (fun p => p.1 != k)) = none := by
    rw [List.find?_eq_none]
    intro p hp
    have := (List.mem_filter.mp hp).2
    simp only [bne_iff_ne, ne_eq] at this
    simp [this]
  rw [hfind]
  rfl

theorem getItem_removeItem_other (s : List (String × String)) (k k' : String)
    (hne : k' ≠ k) : getItem (removeItem s k) k' = getItem s k' := by
  unfold getItem removeItem
  congr 1
  induction s with
  | nil => rfl
  | cons a l ih =>
    rw [List.filter_cons]
    by_cases ha : a.1 = k
    · have h1 : (a.1 != k) = false := by simp [ha]
      rw [h1]
      simp only [Bool.false_eq_true, if_false]
      rw [ih]
      have h2 : (a.1 == k') = false := by
        simp only [beq_eq_false_iff_ne, ne_eq, ha]
        exact fun hc => hne hc.symm
      rw [find_cons_neg (fun p : String × String => p.1 == k') a l h2]
    · have h1 : (a.1 != k) = true := by simp [ha]
      rw [h1]
      simp only [if_true]
      by_cases h2 : a.1 = k'
      · rw [find_cons_pos (fun p : String × String => p.1 == k') a _ (beq_iff_eq.mpr h2),
          find_cons_pos (fun p : String × String => p.1 == k') a l (beq_iff_eq.mpr h2)]
      · rw [find_cons_neg (fun p : String × String => p.1 == k') a _ (by simp [h2]),
          find_cons_neg (fun p : String × String => p.1 == k') a l (by simp [h2])]
        exact ih

/-! ### Reachability of the scenario states -/

theorem demo1_reachable : Reachable demo1 :=
  Reachable.topup initState 0 10 Reachable.init

theorem demo2_reachable : Reachable demo2 :=
  Reachable.submit demo1 0 JobKind.image_predict "img-1" true demo1_reachable

theorem demo3_reachable : Reachable demo3 :=
  Reachable.work demo2 0 okEngine 3 demo2_reachable

theorem demo4_reachable : Reachable demo4 :=
  Reachable.submit demo3 0 JobKind.scan_predict "scan-1" true demo3_reachable

theorem demo5_reachable : Reachable demo5 :=
  Reachable.work demo4 1 scanFailEngine 3 demo4_reachable

theorem demo6_reachable : Reachable demo6 :=
  Reachable.topup demo5 1 1 demo5_reachable

/-! ## The claims -/

/-- C1: for every user and after every ledger operation (that is, in
every reachable state of the pipeline), the user's balance equals the sum
of all applied Transactions for that user and is non-negative; in
particular no committed debit leaves a balance below zero. -/
theorem C1_balance_invariant (st : SysState) (h : Reachable st) (uid : Nat) :
    st.ledger.balances uid = txSum st.ledger.transactions uid ∧
    0 ≤ st.ledger.balances uid :=
  ⟨(reachable_inv st h).bal_eq uid, (reachable_inv st h).bal_nonneg uid⟩

/-- Witness for C1 at the end of the §8 scenario run. -/
theorem C1_balance_invariant_witness :
    demo5.ledger.balances 0 = txSum demo5.ledger.transactions 0 ∧
    0 ≤ demo5.ledger.balances 0 :=
  C1_balance_invariant demo5 demo5_reachable 0

/-- C2: in every reachable state, every Job has exactly one debit
Transaction carrying its `job_id` and at most one refund Transaction,
and a refund can exist only if the Job's terminal status is `refunded`
and only if a prior debit (one with a smaller transaction id) for the
same `job_id` exists. -/
theorem C2_transaction_multiplicity (st : SysState) (h : Reachable st)
    (j : Job) (hj : j ∈ st.jobs) :
    countDebit st.ledger.transactions j.id = 1 ∧
    countRefund st.ledger.transactions j.id ≤ 1 ∧
    (∀ r ∈ st.ledger.transactions, isRefundFor j.id r = true →
      j.status = JobStatus.refunded ∧
      ∃ d ∈ st.ledger.transactions, isDebitFor j.id d = true ∧ d.id < r.id) := by
  have hi := reachable_inv st h
  refine ⟨hi.debit_unique j hj, hi.refund_atmost j hj, ?_⟩
  intro r hr hrf
  constructor
  · apply hi.refund_status j hj
    have hpos : 0 < countRefund st.ledger.transactions j.id :=
      List.countP_pos_iff.mpr ⟨r, hr, hrf⟩
    omega
  · exact hi.refund_after_debit r hr j.id hrf

/-- Witness for C2 at the refunded scan job of the §8 scenario. -/
theorem C2_transaction_multiplicity_witness :
    countDebit demo5.ledger.transactions demoScanJob.id = 1 ∧
    countRefund demo5.ledger.transactions demoScanJob.id ≤ 1 ∧
    (∀ r ∈ demo5.ledger.transactions, isRefundFor demoScanJob.id r = true →
      demoScanJob.status = JobStatus.refunded ∧
      ∃ d ∈ demo5.ledger.transactions, isDebitFor demoScanJob.id d = true ∧
        d.id < r.id) :=
  C2_transaction_multiplicity demo5 demo5_reachable demoScanJob (by decide)

/-- C3: redelivering a job message for a Job that is not currently
`queued` (already claimed, already terminal — in particular already
`completed` — or unknown) makes `claim` return false with the state
untouched, and the whole worker path performs no Ledger or Job Store
mutation: message processing is idempotent under at-least-once
delivery. -/
theorem C3_redelivery_idempotent (st : SysState) (jid : Nat) (j : Job)
    (eng : Engine) (maxA : Nat) (hfind : findJob st.jobs jid = some j)
    (hs : j.status ≠ JobStatus.queued) :
    claim st jid = (st, false) ∧ processMessage st jid eng maxA = st :=
  ⟨claim_not_queued st jid j hfind hs,
    processMessage_not_queued st jid eng maxA j hfind hs⟩

/-- Witness for C3: redelivering the refunded scan job's message changes
nothing. -/
theorem C3_redelivery_idempotent_witness :
    claim demo5 1 = (demo5, false) ∧
    processMessage demo5 1 okEngine 3 = demo5 :=
  C3_redelivery_idempotent demo5 1 demoScanJob okEngine 3 (by decide) (by decide)

/-- C4: a submission by a user whose balance is below the job cost fails
with `InsufficientBalance` and returns the state unchanged — no Job is
created and the balance is untouched, the debit/job-create unit aborts
with no partial effect. -/
theorem C4_insufficient_balance (st : SysState) (uid : Nat) (kind : JobKind)
    (input_ref : String) (hlow : st.ledger.balances uid < costOf kind) :
    submitPrediction st uid kind input_ref true =
      (st, Except.error LedgerError.InsufficientBalance) := by
  unfold submitPrediction debit
  simp [hlow]

/-- Witness for C4: user 1 with balance 1.00 submits a 5.00 scan. -/
theorem C4_insufficient_balance_witness :
    submitPrediction demo6 1 JobKind.scan_predict "scan-2" true =
      (demo6, Except.error LedgerError.InsufficientBalance) :=
  C4_insufficient_balance demo6 1 JobKind.scan_predict "scan-2" (by decide)

/-- C5: every queued Job whose inference fails permanently — whatever its
kind, and in particular a `scan_predict` whose second (aneurysm) call
fails after the first (brain) call succeeded — ends in terminal status
`refunded` with no partial result persisted (`result_refs` stays empty),
the user's balance is restored to its pre-debit value (the recorded
debited amount is credited back), and exactly one debit and exactly one
refund Transaction exist for that Job. -/
theorem C5_permanent_failure_refund (st : SysState) (h : Reachable st)
    (jid : Nat) (j : Job) (eng : Engine) (maxA : Nat)
    (hfind : findJob st.jobs jid = some j) (hq : j.status = JobStatus.queued)
    (hrun : runInference eng j.kind j.input_ref = WorkResult.permanent) :
    findJob (processMessage st jid eng maxA).jobs jid = some
      { j with status := JobStatus.refunded
               attempt_count := j.attempt_count + 1 } ∧
    j.result_refs = [] ∧
    (processMessage st jid eng maxA).ledger.balances j.user_id =
      st.ledger.balances j.user_id + debitAmountFor st.ledger.transactions jid ∧
    countDebit (processMessage st jid eng maxA).ledger.transactions jid = 1 ∧
    countRefund (processMessage st jid eng maxA).ledger.transactions jid = 1 := by
  have hi := reachable_inv st h
  obtain ⟨hjmem, hjid⟩ := findJob_eq_some st.jobs jid j hfind
  have hqne : j.status ≠ JobStatus.refunded := by
    rw [hq]
    exact fun hc => JobStatus.noConfusion hc
  have hzeroR : countRefund st.ledger.transactions j.id = 0 :=
    countRefund_zero_of_not_refunded st j hi hjmem hqne
  have hzeroR' : countRefund st.ledger.transactions jid = 0 := by
    rw [← hjid]
    exact hzeroR
  have hnoref : findRefund st.ledger.transactions jid = none :=
    findRefund_eq_none_of_count _ _ hzeroR'
  rw [processMessage_permanent st jid eng maxA j hi.ids_nodup hfind hq hrun hnoref]
  refine ⟨?_, ?_, ?_, ?_, ?_⟩
  · exact findJob_updateJob st.jobs jid _ j rfl hjid hfind
  · exact hi.refs_empty j hjmem (by
      rw [hq]
      exact fun hc => JobStatus.noConfusion hc)
  · show setBal st.ledger.balances j.user_id
      (st.ledger.balances j.user_id +
        debitAmountFor st.ledger.transactions jid) j.user_id =
      st.ledger.balances j.user_id + debitAmountFor st.ledger.transactions jid
    simp [setBal]
  · show countDebit (st.ledger.transactions ++
      [⟨st.ledger.nextTxId, j.user_id, TxKind.refund,
        debitAmountFor st.ledger.transactions jid, some jid⟩]) jid = 1
    rw [countDebit_append]
    have h1 := hi.debit_unique j hjmem
    rw [hjid] at h1
    simp [isDebitFor, h1]
  · show countRefund (st.ledger.transactions ++
      [⟨st.ledger.nextTxId, j.user_id, TxKind.refund,
        debitAmountFor st.ledger.transactions jid, some jid⟩]) jid = 1
    rw [countRefund_append]
    simp [isRefundFor, hzeroR']

/-- Witness for C5: the §8 scenario's scan job, whose first (brain) call
succeeds and whose second (aneurysm) call fails permanently. -/
theorem C5_permanent_failure_refund_witness :
    findJob (processMessage demo4 1 scanFailEngine 3).jobs 1 = some
      { demoQueuedScanJob with status := JobStatus.refunded
                               attempt_count := demoQueuedScanJob.attempt_count + 1 } ∧
    demoQueuedScanJob.result_refs = [] ∧
    (processMessage demo4 1 scanFailEngine 3).ledger.balances
        demoQueuedScanJob.user_id =
      demo4.ledger.balances demoQueuedScanJob.user_id +
        debitAmountFor demo4.ledger.transactions 1 ∧
    countDebit (processMessage demo4 1 scanFailEngine 3).ledger.transactions 1 = 1 ∧
    countRefund (processMessage demo4 1 scanFailEngine 3).ledger.transactions 1 = 1 :=
  C5_permanent_failure_refund demo4 demo4_reachable 1 demoQueuedScanJob
    scanFailEngine 3 (by decide) (by decide) (by decide)

/-- C6: in every reachable state a completed Job carries a non-empty
`result_refs` whose length matches its kind (1 for `image_predict`, 2 for
`scan_predict`); and the client pages store, from a successful submission
response, exactly the destructured fields: `credits_spent` together with
`brain_mask_url`/`aneurysm_mask_url`/`original_scan_url` on the 3D-scan
page and `credits_spent` together with `image_prediction` on the
dashboard. -/
theorem C6_completed_results (st : SysState) (h : Reachable st)
    (j : Job) (hj : j ∈ st.jobs) (hc : j.status = JobStatus.completed)
    (pst : Scan3DState) (resp : ScanResponse)
    (r0 : Option DashResult) (iresp : ImageResponse) :
    j.result_refs ≠ [] ∧
    j.result_refs.length = kindArity j.kind ∧
    (scan3dPredictSuccess pst resp).result = some
      { credits_spent := resp.credits_spent
        brain_mask_url := resp.brain_mask_url
        aneurysm_mask_url := resp.aneurysm_mask_url
        original_scan_url := resp.original_scan_url } ∧
    dashboardPredictSuccess r0 iresp = some
      { credits_spent := iresp.credits_spent
        mask_url := iresp.image_prediction } := by
  have hi := reachable_inv st h
  have hlen := hi.refs_arity j hj hc
  refine ⟨?_, hlen, rfl, rfl⟩
  intro hnil
  rw [hnil] at hlen
  cases hk : j.kind <;> rw [hk] at hlen <;> simp [kindArity] at hlen

/-- Witness for C6 at the completed image job of the §8 scenario. -/
theorem C6_completed_results_witness :
    demoImageJob.result_refs ≠ [] ∧
    demoImageJob.result_refs.length = kindArity demoImageJob.kind ∧
    (scan3dPredictSuccess ⟨none, none, false, none, none, false⟩
        ⟨5, "b.nii.gz", "a.nii.gz", "o.nii.gz"⟩).result = some
      { credits_spent := (5 : ℚ)
        brain_mask_url := "b.nii.gz"
        aneurysm_mask_url := "a.nii.gz"
        original_scan_url := "o.nii.gz" } ∧
    dashboardPredictSuccess none ⟨2, "mask.png"⟩ = some
      { credits_spent := (2 : ℚ), mask_url := "mask.png" } :=
  C6_completed_results demo3 demo3_reachable demoImageJob (by decide) (by decide)
    ⟨none, none, false, none, none, false⟩ ⟨5, "b.nii.gz", "a.nii.gz", "o.nii.gz"⟩
    none ⟨2, "mask.png"⟩

/-- C7: the balance card's top-up handler validates the amount before any
request: when `parseFloat` of the input yields NaN or a non-positive
value, it sets the error 'Enter a valid positive amount' and issues no
request at all; when the parsed amount is positive it issues exactly one
POST of exactly that amount (followed by the balance refetch). -/
theorem C7_topup_validation (st : BalanceCardState) :
    ((jsParseFloat st.amount = none ∨
        ∃ a, jsParseFloat st.amount = some a ∧ a ≤ 0) →
      handleTopUp st = ({ st with error := some "Enter a valid positive amount"
                                  loading := false }, [])) ∧
    (∀ a, jsParseFloat st.amount = some a → 0 < a →
      handleTopUp st = ({ st with amount := ""
                                  error := none
                                  loading := false },
        [ApiRequest.postTopup a, ApiRequest.getBalance])) := by
  constructor
  · rintro (hn | ⟨a, ha, hle⟩)
    · unfold handleTopUp
      rw [hn]
    · unfold handleTopUp
      rw [ha]
      simp only [if_pos hle]
  · intro a ha hpos
    unfold handleTopUp
    rw [ha]
    simp only [if_neg (not_le.mpr hpos)]

/-- Witness for C7 on the input string `-3`. -/
theorem C7_topup_validation_witness :
    handleTopUp ⟨none, "-3", false, none⟩ =
      ({ balance := none, amount := "-3", loading := false
         error := some "Enter a valid positive amount" }, []) :=
  (C7_topup_validation ⟨none, "-3", false, none⟩).1
    (Or.inr ⟨-3, by decide, by decide⟩)

/-- C8: on the 3D-scan page, selecting a file whose name ends in neither
`.nii` nor `.nii.gz` only sets the error message — the selected file and
the preview are left unchanged — and the predict handler can only ever
POST the currently selected file, so no `/predict/3d-scan` request can be
issued for the rejected file. -/
theorem C8_scan_file_validation (st : Scan3DState) (f : JsFile)
    (hbad1 : strEndsWith f.name ".nii.gz" = false)
    (hbad2 : strEndsWith f.name ".nii" = false) :
    scan3dHandleFileChange st (some f) =
      { st with error := some "Please upload a NIfTI file (.nii or .nii.gz)" } ∧
    (scan3dHandleFileChange st (some f)).file = st.file ∧
    (scan3dHandleFileChange st (some f)).preview = st.preview ∧
    (∀ g ∈ (scan3dHandlePredict st).2, st.file = some g) := by
  have hmain : scan3dHandleFileChange st (some f) =
      { st with error := some "Please upload a NIfTI file (.nii or .nii.gz)" } := by
    have hcond : strEndsWith f.name ".nii.gz" = false ∧
        strEndsWith f.name ".nii" = false := ⟨hbad1, hbad2⟩
    unfold scan3dHandleFileChange
    dsimp only
    rw [if_pos hcond]
  refine ⟨hmain, by rw [hmain], by rw [hmain], ?_⟩
  intro g hg
  unfold scan3dHandlePredict at hg
  cases hfile : st.file with
  | none =>
    rw [hfile] at hg
    cases hg
  | some f' =>
    rw [hfile] at hg
    simp only [List.mem_singleton] at hg
    exact congrArg some hg.symm

/-- Witness for C8 on a file named `scan.txt`. -/
theorem C8_scan_file_validation_witness :
    scan3dHandleFileChange ⟨none, none, false, none, none, false⟩
        (some ⟨"scan.txt", 42, "text/plain"⟩) =
      { file := none, result := none, loading := false
        error := some "Please upload a NIfTI file (.nii or .nii.gz)"
        preview := none, showOverlay := false } ∧
    (scan3dHandleFileChange ⟨none, none, false, none, none, false⟩
        (some ⟨"scan.txt", 42, "text/plain"⟩)).file = none ∧
    (scan3dHandleFileChange ⟨none, none, false, none, none, false⟩
        (some ⟨"scan.txt", 42, "text/plain"⟩)).preview = none ∧
    (∀ g ∈ (scan3dHandlePredict ⟨none, none, false, none, none, false⟩).2,
      (none : Option JsFile) = some g) :=
  C8_scan_file_validation ⟨none, none, false, none, none, false⟩
    ⟨"scan.txt", 42, "text/plain"⟩ (by decide) (by decide)

/-- C9: after `logout`, the context token is null, the `token` key is
removed from localStorage, and the token effect deletes the default
`Authorization` header, so no subsequent request carries the old bearer
token; the user state and every other localStorage key are unchanged. -/
theorem C9_logout_frame (st : AuthState) (k : String) (hk : k ≠ "token") :
    (logout st).token = none ∧
    getItem (logout st).store "token" = none ∧
    (logout st).authHeader = none ∧
    (logout st).user = st.user ∧
    getItem (logout st).store k = getItem st.store k := by
  refine ⟨rfl, ?_, rfl, rfl, ?_⟩
  · show getItem (removeItem st.store "token") "token" = none
    exact getItem_removeItem_self st.store "token"
  · show getItem (removeItem st.store "token") k = getItem st.store k
    exact getItem_removeItem_other st.store "token" k hk

/-- Witness for C9 on a logged-in state with one extra stored key. -/
theorem C9_logout_frame_witness :
    (logout ⟨some "tok", some "alice",
        [("token", "tok"), ("theme", "dark")], some "Bearer tok"⟩).token = none ∧
    getItem (logout ⟨some "tok", some "alice",
        [("token", "tok"), ("theme", "dark")], some "Bearer tok"⟩).store
      "token" = none ∧
    (logout ⟨some "tok", some "alice",
        [("token", "tok"), ("theme", "dark")], some "Bearer tok"⟩).authHeader =
      none ∧
    (logout ⟨some "tok", some "alice",
        [("token", "tok"), ("theme", "dark")], some "Bearer tok"⟩).user =
      some "alice" ∧
    getItem (logout ⟨some "tok", some "alice",
        [("token", "tok"), ("theme", "dark")], some "Bearer tok"⟩).store
      "theme" =
      getItem [("token", "tok"), ("theme", "dark")] "theme" :=
  C9_logout_frame ⟨some "tok", some "alice",
    [("token", "tok"), ("theme", "dark")], some "Bearer tok"⟩ "theme" (by decide)

/-- C10: when the GET `/balance` request fails, `fetchBalance` swallows
the error: the component state is completely unchanged (so `balance`
stays null and no error message is ever set for a failed balance fetch),
and with a null balance the card keeps rendering the 'Loading...'
text. -/
theorem C10_balance_fetch_failure (st : BalanceCardState)
    (hb : st.balance = none) :
    fetchBalance st FetchOutcome.failed = st ∧
    (fetchBalance st FetchOutcome.failed).error = st.error ∧
    renderBalance (fetchBalance st FetchOutcome.failed) =
      BalanceDisplay.loadingText := by
  refine ⟨rfl, rfl, ?_⟩
  show renderBalance st = BalanceDisplay.loadingText
  unfold renderBalance
  rw [hb]

/-- Witness for C10 on the initial card state. -/
theorem C10_balance_fetch_failure_witness :
    fetchBalance ⟨none, "", false, none⟩ FetchOutcome.failed =
      ⟨none, "", false, none⟩ ∧
    (fetchBalance ⟨none, "", false, none⟩ FetchOutcome.failed).error = none ∧
    renderBalance (fetchBalance ⟨none, "", false, none⟩ FetchOutcome.failed) =
      BalanceDisplay.loadingText :=
  C10_balance_fetch_failure ⟨none, "", false, none⟩ rfl

end MFDP
